import Mathlib

/-!
Verification of the grade/GPA engine and the connection-pool resource
manager of the school-ERP application (`src/sxhool.py`).

Numeric values (marks, totals, grade points) are modelled as rationals;
SQL rows are modelled as Lean structures and tables as lists of rows.
-/

namespace SchoolERP

/-- Embedding of `calculate_grade(marks, total)` (src/sxhool.py:303-314):
`percentage = (marks / total) * 100` followed by the top-down `if/elif`
chain with inclusive lower bounds. -/
def calculate_grade (marks total : ℚ) : String × ℚ :=
  let percentage := marks / total * 100
  if percentage ≥ 80 then ("A+", 5.0)
  else if percentage ≥ 75 then ("A", 4.0)
  else if percentage ≥ 70 then ("A-", 3.5)
  else if percentage ≥ 65 then ("B+", 3.25)
  else if percentage ≥ 60 then ("B", 3.0)
  else if percentage ≥ 55 then ("B-", 2.75)
  else if percentage ≥ 50 then ("C+", 2.5)
  else if percentage ≥ 45 then ("C", 2.25)
  else if percentage ≥ 40 then ("D", 2.0)
  else ("F", 0.0)

/-- The fixed threshold table of the specification: lower bound, letter,
grade point, listed top-down. -/
def gradeThresholds : List (ℚ × String × ℚ) :=
  [(80, ("A+", 5.0)), (75, ("A", 4.0)), (70, ("A-", 3.5)), (65, ("B+", 3.25)),
   (60, ("B", 3.0)), (55, ("B-", 2.75)), (50, ("C+", 2.5)), (45, ("C", 2.25)),
   (40, ("D", 2.0))]

/-- Spec-side lookup: evaluate the rows top-down, inclusive lower bounds,
first match wins, `(F, 0.00)` otherwise. Written from the words of the spec,
to be compared with `calculate_grade`. -/
def findGrade : List (ℚ × String × ℚ) → ℚ → String × ℚ
  | [], _ => ("F", 0.0)
  | t :: rest, p => if t.1 ≤ p then t.2 else findGrade rest p

/-- Spec-side grade of a percentage, via the threshold table. -/
def gradeFromTable (p : ℚ) : String × ℚ :=
  findGrade gradeThresholds p

theorem gradeFromTable_eq (p : ℚ) :
    gradeFromTable p =
      if 80 ≤ p then ("A+", 5.0)
      else if 75 ≤ p then ("A", 4.0)
      else if 70 ≤ p then ("A-", 3.5)
      else if 65 ≤ p then ("B+", 3.25)
      else if 60 ≤ p then ("B", 3.0)
      else if 55 ≤ p then ("B-", 2.75)
      else if 50 ≤ p then ("C+", 2.5)
      else if 45 ≤ p then ("C", 2.25)
      else if 40 ≤ p then ("D", 2.0)
      else ("F", 0.0) := by
  simp [gradeFromTable, gradeThresholds, findGrade]

/-- The implementation chain coincides with the spec-side table lookup on
every input (shared helper; `t = 0` makes both sides look up percentage
`0` since division by zero yields `0` on `ℚ`). -/
theorem calculate_grade_eq_table (marks total : ℚ) :
    calculate_grade marks total = gradeFromTable (marks / total * 100) := by
  rw [gradeFromTable_eq]
  simp only [calculate_grade, ge_iff_le]

theorem gradePoint_nonneg (p : ℚ) : 0 ≤ (gradeFromTable p).2 := by
  rw [gradeFromTable_eq]
  split_ifs <;> norm_num

theorem gradePoint_le_five (p : ℚ) : (gradeFromTable p).2 ≤ 5 := by
  rw [gradeFromTable_eq]
  split_ifs <;> norm_num

theorem gradePoint_ub80 (p : ℚ) (h : p < 80) : (gradeFromTable p).2 ≤ 4 := by
  rw [gradeFromTable_eq]
  split_ifs <;> norm_num <;> linarith

theorem gradePoint_ub75 (p : ℚ) (h : p < 75) : (gradeFromTable p).2 ≤ 3.5 := by
  rw [gradeFromTable_eq]
  split_ifs <;> norm_num <;> linarith

theorem gradePoint_ub70 (p : ℚ) (h : p < 70) : (gradeFromTable p).2 ≤ 3.25 := by
  rw [gradeFromTable_eq]
  split_ifs <;> norm_num <;> linarith

theorem gradePoint_ub65 (p : ℚ) (h : p < 65) : (gradeFromTable p).2 ≤ 3 := by
  rw [gradeFromTable_eq]
  split_ifs <;> norm_num <;> linarith

theorem gradePoint_ub60 (p : ℚ) (h : p < 60) : (gradeFromTable p).2 ≤ 2.75 := by
  rw [gradeFromTable_eq]
  split_ifs <;> norm_num <;> linarith

theorem gradePoint_ub55 (p : ℚ) (h : p < 55) : (gradeFromTable p).2 ≤ 2.5 := by
  rw [gradeFromTable_eq]
  split_ifs <;> norm_num <;> linarith

theorem gradePoint_ub50 (p : ℚ) (h : p < 50) : (gradeFromTable p).2 ≤ 2.25 := by
  rw [gradeFromTable_eq]
  split_ifs <;> norm_num <;> linarith

theorem gradePoint_ub45 (p : ℚ) (h : p < 45) : (gradeFromTable p).2 ≤ 2 := by
  rw [gradeFromTable_eq]
  split_ifs <;> norm_num <;> linarith

theorem gradePoint_ub40 (p : ℚ) (h : p < 40) : (gradeFromTable p).2 ≤ 0 := by
  rw [gradeFromTable_eq]
  split_ifs <;> norm_num <;> linarith

theorem gradePoint_lb80 (q : ℚ) (h : 80 ≤ q) : 5 ≤ (gradeFromTable q).2 := by
  rw [gradeFromTable_eq]
  split_ifs <;> norm_num <;> linarith

theorem gradePoint_lb75 (q : ℚ) (h : 75 ≤ q) : 4 ≤ (gradeFromTable q).2 := by
  rw [gradeFromTable_eq]
  split_ifs <;> norm_num <;> linarith

theorem gradePoint_lb70 (q : ℚ) (h : 70 ≤ q) : 3.5 ≤ (gradeFromTable q).2 := by
  rw [gradeFromTable_eq]
  split_ifs <;> norm_num <;> linarith

theorem gradePoint_lb65 (q : ℚ) (h : 65 ≤ q) : 3.25 ≤ (gradeFromTable q).2 := by
  rw [gradeFromTable_eq]
  split_ifs <;> norm_num <;> linarith

theorem gradePoint_lb60 (q : ℚ) (h : 60 ≤ q) : 3 ≤ (gradeFromTable q).2 := by
  rw [gradeFromTable_eq]
  split_ifs <;> norm_num <;> linarith

theorem gradePoint_lb55 (q : ℚ) (h : 55 ≤ q) : 2.75 ≤ (gradeFromTable q).2 := by
  rw [gradeFromTable_eq]
  split_ifs <;> norm_num <;> linarith

theorem gradePoint_lb50 (q : ℚ) (h : 50 ≤ q) : 2.5 ≤ (gradeFromTable q).2 := by
  rw [gradeFromTable_eq]
  split_ifs <;> norm_num <;> linarith

theorem gradePoint_lb45 (q : ℚ) (h : 45 ≤ q) : 2.25 ≤ (gradeFromTable q).2 := by
  rw [gradeFromTable_eq]
  split_ifs <;> norm_num <;> linarith

theorem gradePoint_lb40 (q : ℚ) (h : 40 ≤ q) : 2 ≤ (gradeFromTable q).2 := by
  rw [gradeFromTable_eq]
  split_ifs <;> norm_num <;> linarith

/-- Monotonicity of the looked-up grade point in the percentage. -/
theorem gradePoint_mono (p q : ℚ) (h : p ≤ q) :
    (gradeFromTable p).2 ≤ (gradeFromTable q).2 := by
  rcases le_or_lt 80 p with hp | hp
  · exact le_trans (gradePoint_le_five p) (gradePoint_lb80 q (hp.trans h))
  rcases le_or_lt 75 p with hp2 | hp2
  · exact le_trans (gradePoint_ub80 p hp) (gradePoint_lb75 q (hp2.trans h))
  rcases le_or_lt 70 p with hp3 | hp3
  · exact le_trans (gradePoint_ub75 p hp2) (gradePoint_lb70 q (hp3.trans h))
  rcases le_or_lt 65 p with hp4 | hp4
  · exact le_trans (gradePoint_ub70 p hp3) (gradePoint_lb65 q (hp4.trans h))
  rcases le_or_lt 60 p with hp5 | hp5
  · exact le_trans (gradePoint_ub65 p hp4) (gradePoint_lb60 q (hp5.trans h))
  rcases le_or_lt 55 p with hp6 | hp6
  · exact le_trans (gradePoint_ub60 p hp5) (gradePoint_lb55 q (hp6.trans h))
  rcases le_or_lt 50 p with hp7 | hp7
  · exact le_trans (gradePoint_ub55 p hp6) (gradePoint_lb50 q (hp7.trans h))
  rcases le_or_lt 45 p with hp8 | hp8
  · exact le_trans (gradePoint_ub50 p hp7) (gradePoint_lb45 q (hp8.trans h))
  rcases le_or_lt 40 p with hp9 | hp9
  · exact le_trans (gradePoint_ub45 p hp8) (gradePoint_lb40 q (hp9.trans h))
  · exact le_trans (gradePoint_ub40 p hp9) (gradePoint_nonneg q)

/-- **C1.** For every pair `(marks, total)` with `total > 0`,
`calculate_grade marks total` is exactly the threshold-table lookup at
`percentage = marks / total * 100` (inclusive lower bounds, top-down,
first match wins); in particular `calculate_grade 80 100 = ("A+", 5.0)`,
`calculate_grade 79 100 = ("A", 4.0)`, `calculate_grade 39 100 = ("F", 0.0)`,
and `calculate_grade 0 100 = ("F", 0.0)`. -/
theorem calculate_grade_matches_table :
    (∀ marks total : ℚ, 0 < total →
      calculate_grade marks total = gradeFromTable (marks / total * 100)) ∧
    calculate_grade 80 100 = ("A+", 5.0) ∧
    calculate_grade 79 100 = ("A", 4.0) ∧
    calculate_grade 39 100 = ("F", 0.0) ∧
    calculate_grade 0 100 = ("F", 0.0) := by
  refine ⟨fun marks total _ => calculate_grade_eq_table marks total,
    by norm_num [calculate_grade], by norm_num [calculate_grade],
    by norm_num [calculate_grade], by norm_num [calculate_grade]⟩

/-- Witness for C1: the universal part applied at the concrete input
`(50, 100)`, the positivity hypothesis discharged there. -/
theorem calculate_grade_matches_table_witness :
    (0 : ℚ) < 100 ∧ calculate_grade 50 100 = gradeFromTable (50 / 100 * 100) :=
  ⟨by norm_num, calculate_grade_matches_table.1 50 100 (by norm_num)⟩

/-- **C3.** On the domain `0 < marks ≤ total`, the grade point returned by
`calculate_grade` is monotone non-decreasing in `percentage = marks/total*100`:
percentages `p1 ≤ p2` get grade points `gp1 ≤ gp2`. -/
theorem calculate_grade_point_monotone (m1 t1 m2 t2 : ℚ)
    (hm1 : 0 < m1) (h1 : m1 ≤ t1) (hm2 : 0 < m2) (h2 : m2 ≤ t2)
    (hp : m1 / t1 * 100 ≤ m2 / t2 * 100) :
    (calculate_grade m1 t1).2 ≤ (calculate_grade m2 t2).2 := by
  rw [calculate_grade_eq_table, calculate_grade_eq_table]
  exact gradePoint_mono _ _ hp

/-- Witness for C3: applied at `(40, 100)` and `(90, 100)`, every
hypothesis discharged there. -/
theorem calculate_grade_point_monotone_witness :
    (0 : ℚ) < 40 ∧ (40 : ℚ) ≤ 100 ∧ (0 : ℚ) < 90 ∧ (90 : ℚ) ≤ 100 ∧
      (40 : ℚ) / 100 * 100 ≤ 90 / 100 * 100 ∧
      (calculate_grade 40 100).2 ≤ (calculate_grade 90 100).2 :=
  ⟨by norm_num, by norm_num, by norm_num, by norm_num, by norm_num,
    calculate_grade_point_monotone 40 100 90 100 (by norm_num) (by norm_num)
      (by norm_num) (by norm_num) (by norm_num)⟩

/-- **C10.** For every `total > 0`, `calculate_grade` is total and always
returns one of the ten fixed letter/point pairs; `marks > total` yields
`("A+", 5.0)` and negative `marks` yields `("F", 0.0)` — no further input
validation is performed. -/
theorem calculate_grade_total_no_validation (marks total : ℚ) (ht : 0 < total) :
    calculate_grade marks total ∈
      [("A+", (5.0 : ℚ)), ("A", 4.0), ("A-", 3.5), ("B+", 3.25), ("B", 3.0),
       ("B-", 2.75), ("C+", 2.5), ("C", 2.25), ("D", 2.0), ("F", 0.0)] ∧
    (total < marks → calculate_grade marks total = ("A+", 5.0)) ∧
    (marks < 0 → calculate_grade marks total = ("F", 0.0)) := by
  refine ⟨?_, ?_, ?_⟩
  · rw [calculate_grade_eq_table, gradeFromTable_eq]
    split_ifs <;> simp
  · intro hgt
    have hdiv : 1 < marks / total := (one_lt_div ht).mpr hgt
    have hpct : 100 < marks / total * 100 := by linarith
    rw [calculate_grade_eq_table, gradeFromTable_eq]
    rw [if_pos (by linarith : (80 : ℚ) ≤ marks / total * 100)]
  · intro hneg
    have hdiv : marks / total < 0 := div_neg_of_neg_of_pos hneg ht
    have hpct : marks / total * 100 < 0 := by linarith
    rw [calculate_grade_eq_table, gradeFromTable_eq]
    rw [if_neg (by push_neg; linarith), if_neg (by push_neg; linarith),
        if_neg (by push_neg; linarith), if_neg (by push_neg; linarith),
        if_neg (by push_neg; linarith), if_neg (by push_neg; linarith),
        if_neg (by push_neg; linarith), if_neg (by push_neg; linarith),
        if_neg (by push_neg; linarith)]

/-- Witness for C10: applied at `(150, 100)`, the hypothesis `0 < 100`
discharged there, and the `marks > total` conclusion instantiated. -/
theorem calculate_grade_total_no_validation_witness :
    (0 : ℚ) < 100 ∧
      calculate_grade 150 100 ∈
        [("A+", (5.0 : ℚ)), ("A", 4.0), ("A-", 3.5), ("B+", 3.25), ("B", 3.0),
         ("B-", 2.75), ("C+", 2.5), ("C", 2.25), ("D", 2.0), ("F", 0.0)] ∧
      calculate_grade 150 100 = ("A+", 5.0) :=
  ⟨by norm_num,
    (calculate_grade_total_no_validation 150 100 (by norm_num)).1,
    (calculate_grade_total_no_validation 150 100 (by norm_num)).2.1 (by norm_num)⟩

/-- One row of the `students` table (src/sxhool.py:82-99): the columns
the GPA engine writes (`gpa`, `cgpa`) plus representative columns it
must leave untouched. -/
structure StudentRow where
  id : ℕ
  admission_number : String
  roll_number : ℕ
  status : String
  gpa : ℚ
  cgpa : ℚ
  class_rank : ℕ
deriving DecidableEq

/-- SQL `AVG(grade_point)` over the grade rows of one student
(src/sxhool.py:323-327): `NULL` (`none`) when the student has no grade
rows, otherwise the arithmetic mean. -/
def sqlAvg (l : List ℚ) : Option ℚ :=
  if l.isEmpty then none else some (l.sum / l.length)

/-- Python `round(x, 2)` on the average (src/sxhool.py:331), modelled as
exact two-decimal rounding on `ℚ`. -/
def round2 (x : ℚ) : ℚ := ((round (x * 100) : ℤ) : ℚ) / 100

/-- Embedding of `update_student_gpa` (src/sxhool.py:322-332). The
Python guard `if grades and grades[0][...]` is truthiness: the UPDATE
runs only when the queried average is neither NULL nor `0.0`; when it
runs, it sets both `gpa` and `cgpa` of the students row to the rounded
average. `gradePoints` lists the `grade_point` values of the grade rows
of the student. -/
def update_student_gpa (gradePoints : List ℚ) (s : StudentRow) : StudentRow :=
  match sqlAvg gradePoints with
  | none => s
  | some avg =>
    if avg = 0 then s
    else { s with gpa := round2 avg, cgpa := round2 avg }

/-- Counterexample to C2 as stated: for a student whose only grade point
is `0` (an F), the mean is `0` and `update_student_gpa` stores nothing —
the stale stored value `3.5` survives instead of the rounded mean `0`. -/
theorem update_student_gpa_zero_mean_not_stored :
    ¬ ((update_student_gpa [0] ⟨7, "ADM-7", 12, "Active", 3.5, 3.5, 4⟩).gpa
        = round2 (([0] : List ℚ).sum / (([0] : List ℚ).length : ℚ))) := by
  have h1 : update_student_gpa [0] ⟨7, "ADM-7", 12, "Active", 3.5, 3.5, 4⟩
      = ⟨7, "ADM-7", 12, "Active", 3.5, 3.5, 4⟩ := by
    norm_num [update_student_gpa, sqlAvg]
  rw [h1]
  norm_num [round2]

/-- **C2 (amended).** When the student has at least one grade record and
the unweighted mean of the grade points is nonzero, `update_student_gpa`
stores the two-decimal rounding of that mean as the GPA (and CGPA) of
the student; for grade points `[5.0, 4.0, 3.0]` the stored value is
`4.00`. (As written the claim also promised a write when the mean is
`0`; the truthiness guard in the code skips it — see the
counterexample.) -/
theorem update_student_gpa_stores_rounded_mean (gradePoints : List ℚ)
    (s : StudentRow) (hne : gradePoints ≠ [])
    (h0 : gradePoints.sum / (gradePoints.length : ℚ) ≠ 0) :
    (update_student_gpa gradePoints s).gpa
        = round2 (gradePoints.sum / (gradePoints.length : ℚ)) ∧
    (update_student_gpa gradePoints s).cgpa
        = round2 (gradePoints.sum / (gradePoints.length : ℚ)) ∧
    (update_student_gpa [5, 4, 3] s).gpa = 4 := by
  have hne2 : gradePoints.isEmpty = false := by
    cases gradePoints with
    | nil => exact absurd rfl hne
    | cons a l => rfl
  have havg : sqlAvg [5, 4, 3] = some 4 := by
    norm_num [sqlAvg]
  refine ⟨?_, ?_, ?_⟩
  · simp [update_student_gpa, sqlAvg, hne2, h0]
  · simp [update_student_gpa, sqlAvg, hne2, h0]
  · simp [update_student_gpa, havg, (by norm_num : (4 : ℚ) ≠ 0)]
    norm_num [round2, round_eq]

/-- Witness for the amended C2: applied at grade points `[5, 4, 3]` and
a concrete students row, both hypotheses discharged there. -/
theorem update_student_gpa_stores_rounded_mean_witness :
    ([5, 4, 3] : List ℚ) ≠ [] ∧
    (([5, 4, 3] : List ℚ).sum / ((([5, 4, 3] : List ℚ).length : ℕ) : ℚ)) ≠ 0 ∧
    (update_student_gpa [5, 4, 3] ⟨1, "ADM-1", 1, "Active", 0, 0, 1⟩).gpa
        = round2 (([5, 4, 3] : List ℚ).sum
            / ((([5, 4, 3] : List ℚ).length : ℕ) : ℚ)) :=
  ⟨by simp, by norm_num,
    (update_student_gpa_stores_rounded_mean [5, 4, 3]
      ⟨1, "ADM-1", 1, "Active", 0, 0, 1⟩ (by simp) (by norm_num)).1⟩

/-- **C8.** `update_student_gpa` performs no write at all when the
student has no grade records or when the mean grade point is `0`: the
whole students row — `gpa`, `cgpa` and every other column — is returned
unchanged. -/
theorem update_student_gpa_no_write_on_empty_or_zero (gradePoints : List ℚ)
    (s : StudentRow)
    (h : gradePoints = [] ∨ gradePoints.sum / (gradePoints.length : ℚ) = 0) :
    update_student_gpa gradePoints s = s := by
  rcases h with h | h
  · subst h; rfl
  · by_cases he : gradePoints.isEmpty
    · simp [update_student_gpa, sqlAvg, he]
    · simp [update_student_gpa, sqlAvg, he, h]

/-- Witness for C8: applied to a student with no grade rows and a
concrete stale row, the hypothesis discharged by the left disjunct. -/
theorem update_student_gpa_no_write_witness :
    update_student_gpa [] ⟨2, "ADM-2", 3, "Active", 2.5, 2.25, 9⟩
      = ⟨2, "ADM-2", 3, "Active", 2.5, 2.25, 9⟩ :=
  update_student_gpa_no_write_on_empty_or_zero []
    ⟨2, "ADM-2", 3, "Active", 2.5, 2.25, 9⟩ (Or.inl rfl)

/-- **C9.** Whenever `update_student_gpa` writes, it writes the same
value to both `gpa` and `cgpa`: every call either leaves the row
untouched or results in a row whose `gpa` equals its `cgpa`. -/
theorem update_student_gpa_gpa_eq_cgpa (gradePoints : List ℚ)
    (s : StudentRow) :
    (update_student_gpa gradePoints s).gpa
        = (update_student_gpa gradePoints s).cgpa
      ∨ update_student_gpa gradePoints s = s := by
  unfold update_student_gpa
  cases sqlAvg gradePoints with
  | none => exact Or.inr rfl
  | some a =>
    by_cases h : a = 0 <;> simp [h]

/-- State of `DatabasePool` (src/sxhool.py:21-50): the free list of
handles guarded by the mutex, plus a counter giving the identity of the
next handle opened by `sqlite3.connect`. The Python free list is kept
reversed here: its end, where both `pop` (acquire, src/sxhool.py:44)
and `append` (release, src/sxhool.py:49) operate, is the head. -/
structure PoolState where
  connections : List ℕ
  nextConn : ℕ
deriving DecidableEq

/-- `_initialize_pool` (src/sxhool.py:29-35): open `pool_size` handles
up front. -/
def initialPool (pool_size : ℕ) : PoolState :=
  ⟨(List.range pool_size).reverse, pool_size⟩

/-- The acquire half of `get_connection` (src/sxhool.py:38-44): under
the lock, open a brand-new handle when the free list is empty, else pop
one off the free list. -/
def get_connection (s : PoolState) : ℕ × PoolState :=
  match s.connections with
  | [] => (s.nextConn, ⟨[], s.nextConn + 1⟩)
  | c :: rest => (c, ⟨rest, s.nextConn⟩)

/-- The release half of `get_connection` (src/sxhool.py:47-49, the
`finally` block): push the handle back onto the free list. -/
def releaseConnection (c : ℕ) (s : PoolState) : PoolState :=
  ⟨c :: s.connections, s.nextConn⟩

/-- Scoped use of a pooled handle, as the `with self.get_connection()
as conn:` blocks do: acquire, run the statement, release in the
`finally` block whether or not the statement raised. The statement is
abstracted as a function from the handle to success or a raised
error. -/
def withConnection {ε α : Type} (s : PoolState) (stmt : ℕ → Except ε α) :
    Except ε α × PoolState :=
  let a := get_connection s
  (stmt a.1, releaseConnection a.1 a.2)

/-- Embedding of `DatabasePool.query` (src/sxhool.py:261-269): run the
statement on a pooled handle; on success return the fetched rows and no
user-facing message, on any raised error return the empty list and the
`st.error` side-channel message. -/
def DatabasePool.query {α : Type} (s : PoolState)
    (stmt : ℕ → Except String (List α)) :
    (List α × Option String) × PoolState :=
  let r := withConnection s stmt
  match r.1 with
  | .ok rows => ((rows, none), r.2)
  | .error e => (([], some ("Database query error: " ++ e)), r.2)

/-- Embedding of `DatabasePool.execute` (src/sxhool.py:271-280): on
success commit and return `lastrowid`, on any raised error return
`None` and the `st.error` side-channel message. -/
def DatabasePool.execute (s : PoolState) (stmt : ℕ → Except String ℕ) :
    (Option ℕ × Option String) × PoolState :=
  let r := withConnection s stmt
  match r.1 with
  | .ok rowid => ((some rowid, none), r.2)
  | .error e => ((none, some ("Database execution error: " ++ e)), r.2)

theorem query_state {α : Type} (s : PoolState)
    (stmt : ℕ → Except String (List α)) :
    (DatabasePool.query s stmt).2
      = releaseConnection (get_connection s).1 (get_connection s).2 := by
  unfold DatabasePool.query withConnection
  cases h : stmt (get_connection s).1 <;> simp [h]

theorem execute_state (s : PoolState) (stmt : ℕ → Except String ℕ) :
    (DatabasePool.execute s stmt).2
      = releaseConnection (get_connection s).1 (get_connection s).2 := by
  unfold DatabasePool.execute withConnection
  cases h : stmt (get_connection s).1 <;> simp [h]

/-- **C4.** Statement errors never propagate out of the wrappers: a
failing statement makes `query` return the empty row list (just like a
query matching no rows) and `execute` return `None` (just like a no-op),
each with the error reported only through the side-channel user message;
successful statements return their rows or `lastrowid` with no
message. -/
theorem query_execute_swallow_errors {α : Type} (s : PoolState)
    (stmt : ℕ → Except String (List α)) (stmtW : ℕ → Except String ℕ) :
    (∀ e, stmt (get_connection s).1 = .error e →
        (DatabasePool.query s stmt).1
          = ([], some ("Database query error: " ++ e))) ∧
    (∀ rows, stmt (get_connection s).1 = .ok rows →
        (DatabasePool.query s stmt).1 = (rows, none)) ∧
    (∀ e, stmtW (get_connection s).1 = .error e →
        (DatabasePool.execute s stmtW).1
          = (none, some ("Database execution error: " ++ e))) ∧
    (∀ n, stmtW (get_connection s).1 = .ok n →
        (DatabasePool.execute s stmtW).1 = (some n, none)) := by
  refine ⟨?_, ?_, ?_, ?_⟩ <;> intro x hx <;>
    simp [DatabasePool.query, DatabasePool.execute, withConnection, hx]

/-- Witness for C4: a failing query and a successful execute on the
two-handle pool, the equation hypotheses discharged by `rfl`. -/
theorem query_execute_swallow_errors_witness :
    (DatabasePool.query (initialPool 2)
        (fun _ => (.error ("boom") : Except String (List ℕ)))).1
      = ([], some ("Database query error: " ++ "boom")) ∧
    (DatabasePool.execute (initialPool 2) (fun _ => .ok 7)).1
      = (some 7, none) :=
  ⟨(query_execute_swallow_errors (initialPool 2)
      (fun _ => (.error ("boom") : Except String (List ℕ)))
      (fun _ => .ok 7)).1 ("boom") rfl,
   (query_execute_swallow_errors (initialPool 2)
      (fun _ => (.error ("boom") : Except String (List ℕ)))
      (fun _ => .ok 7)).2.2.2 7 rfl⟩

/-- `n` successive acquisitions with no intervening release, as issued
by `n` concurrent scoped uses of the pool. -/
def acquireMany : ℕ → PoolState → List ℕ × PoolState
  | 0, s => ([], s)
  | n + 1, s =>
    let a := get_connection s
    let r := acquireMany n a.2
    (a.1 :: r.1, r.2)

/-- Pool well-formedness: the free handles are pairwise distinct and
all were opened earlier than the next fresh identity. -/
def GoodState (s : PoolState) : Prop :=
  s.connections.Nodup ∧ ∀ c ∈ s.connections, c < s.nextConn

theorem acquireMany_length (n : ℕ) (s : PoolState) :
    (acquireMany n s).1.length = n := by
  induction n generalizing s with
  | zero => rfl
  | succ n ih => simp [acquireMany, ih]

theorem acquireMany_spec (n : ℕ) : ∀ s : PoolState, GoodState s →
    ((acquireMany n s).1 ++ (acquireMany n s).2.connections).Nodup ∧
    (∀ x ∈ (acquireMany n s).1 ++ (acquireMany n s).2.connections,
        x ∈ s.connections ∨ s.nextConn ≤ x) ∧
    s.nextConn ≤ (acquireMany n s).2.nextConn := by
  induction n with
  | zero =>
    intro s hs
    exact ⟨hs.1, fun x hx => Or.inl (by simpa [acquireMany] using hx),
      le_refl _⟩
  | succ n ih =>
    rintro ⟨conns, f⟩ hs
    cases conns with
    | nil =>
      have hgood : GoodState ⟨[], f + 1⟩ := ⟨List.nodup_nil, by simp⟩
      obtain ⟨hnd, hprov, hle⟩ := ih ⟨[], f + 1⟩ hgood
      have hle2 : f + 1 ≤ (acquireMany n ⟨[], f + 1⟩).2.nextConn := hle
      have hfresh : ∀ x ∈ (acquireMany n ⟨[], f + 1⟩).1
          ++ (acquireMany n ⟨[], f + 1⟩).2.connections, f + 1 ≤ x := by
        intro x hx
        rcases hprov x hx with h | h
        · simp at h
        · exact h
      refine ⟨?_, ?_, ?_⟩
      · simp only [acquireMany, get_connection, List.cons_append,
          List.nodup_cons]
        exact ⟨fun hmem => by have hxf := hfresh _ hmem; omega, hnd⟩
      · simp only [acquireMany, get_connection, List.cons_append]
        intro x hx
        rcases List.mem_cons.mp hx with rfl | hx2
        · exact Or.inr (le_refl _)
        · exact Or.inr (le_trans (Nat.le_succ f) (hfresh x hx2))
      · simp only [acquireMany, get_connection]
        exact le_trans (Nat.le_succ f) hle2
    | cons c rest =>
      have hgood : GoodState ⟨rest, f⟩ :=
        ⟨(List.nodup_cons.mp hs.1).2,
         fun x hx => hs.2 x (List.mem_cons_of_mem c hx)⟩
      obtain ⟨hnd, hprov, hle⟩ := ih ⟨rest, f⟩ hgood
      have hcnot : c ∉ (acquireMany n ⟨rest, f⟩).1
          ++ (acquireMany n ⟨rest, f⟩).2.connections := by
        intro hmem
        rcases hprov c hmem with h | h
        · exact (List.nodup_cons.mp hs.1).1 h
        · have hcf : c < f := hs.2 c (List.mem_cons_self c rest)
          have hfc : f ≤ c := h
          omega
      refine ⟨?_, ?_, ?_⟩
      · simp only [acquireMany, get_connection, List.cons_append,
          List.nodup_cons]
        exact ⟨hcnot, hnd⟩
      · simp only [acquireMany, get_connection, List.cons_append]
        intro x hx
        rcases List.mem_cons.mp hx with rfl | hx2
        · exact Or.inl (List.mem_cons_self _ _)
        · rcases hprov x hx2 with h | h
          · exact Or.inl (List.mem_cons_of_mem c h)
          · exact Or.inr h
      · simp only [acquireMany, get_connection]
        exact hle

/-- **C5.** Acquisition always succeeds and never blocks: on an empty
free list `get_connection` opens a brand-new handle on the spot, and
`pool_size + k` back-to-back acquisitions from a fresh pool all succeed
and hand out `pool_size + k` pairwise-distinct handles — the pool size
is a soft floor, not a hard cap. -/
theorem get_connection_always_grows :
    (∀ s : PoolState, s.connections = [] →
        get_connection s = (s.nextConn, ⟨[], s.nextConn + 1⟩)) ∧
    (∀ pool_size k : ℕ,
        (acquireMany (pool_size + k) (initialPool pool_size)).1.length
            = pool_size + k ∧
        (acquireMany (pool_size + k) (initialPool pool_size)).1.Nodup) := by
  constructor
  · rintro ⟨conns, f⟩ h
    simp only at h
    subst h
    rfl
  · intro ps k
    have hgood : GoodState (initialPool ps) := by
      refine ⟨List.nodup_reverse.mpr (List.nodup_range ps), ?_⟩
      intro c hc
      simpa [initialPool, List.mem_reverse, List.mem_range] using hc
    exact ⟨acquireMany_length _ _,
      ((acquireMany_spec (ps + k) (initialPool ps) hgood).1).of_append_left⟩

/-- Witness for C5: an exhausted pool hands out the fresh handle `3`,
and five acquisitions from a two-handle pool give five distinct
handles. -/
theorem get_connection_always_grows_witness :
    get_connection ⟨[], 3⟩ = ((3 : ℕ), (⟨[], 4⟩ : PoolState)) ∧
    (acquireMany 5 (initialPool 2)).1.length = 5 ∧
    (acquireMany 5 (initialPool 2)).1.Nodup :=
  ⟨get_connection_always_grows.1 ⟨[], 3⟩ rfl,
   (get_connection_always_grows.2 2 3).1,
   (get_connection_always_grows.2 2 3).2⟩

/-- **C6.** Whatever the statement does — succeed or raise — `query` and
`execute` push the acquired handle back onto the free list: it heads the
free list afterwards, and the free list keeps its size (or reaches size
one from an empty list). -/
theorem connection_released_even_on_error {α : Type} (s : PoolState)
    (stmt : ℕ → Except String (List α)) (stmtW : ℕ → Except String ℕ) :
    (DatabasePool.query s stmt).2.connections
        = (get_connection s).1 :: (get_connection s).2.connections ∧
    (DatabasePool.execute s stmtW).2.connections
        = (get_connection s).1 :: (get_connection s).2.connections ∧
    (get_connection s).1 ∈ (DatabasePool.query s stmt).2.connections ∧
    (DatabasePool.query s stmt).2.connections.length
        = max s.connections.length 1 ∧
    (DatabasePool.execute s stmtW).2.connections.length
        = max s.connections.length 1 := by
  have hq := query_state s stmt
  have he := execute_state s stmtW
  have hlen : (releaseConnection (get_connection s).1
      (get_connection s).2).connections.length
        = max s.connections.length 1 := by
    rcases s with ⟨conns, f⟩
    cases conns with
    | nil => rfl
    | cons c rest =>
      simp [get_connection, releaseConnection, Nat.max_eq_left]
  refine ⟨?_, ?_, ?_, ?_, ?_⟩
  · rw [hq]; rfl
  · rw [he]; rfl
  · rw [hq]; exact List.mem_cons_self _ _
  · rw [hq]; exact hlen
  · rw [he]; exact hlen

/-- One row of the `attendance` table (src/sxhool.py:126-133). -/
structure AttendanceRow where
  student_id : ℕ
  date : String
  status : String
  recorded_by : ℕ
deriving DecidableEq

/-- The key of the `UNIQUE(student_id, date)` schema constraint. -/
def attendanceKey (r : AttendanceRow) : ℕ × String :=
  (r.student_id, r.date)

/-- SQLite `INSERT OR REPLACE INTO attendance`, as issued when faculty
saves attendance (src/sxhool.py:1221-1228): the row conflicting on the
`UNIQUE(student_id, date)` key is deleted and the new row inserted. -/
def insertOrReplaceAttendance (t : List AttendanceRow) (r : AttendanceRow) :
    List AttendanceRow :=
  r :: t.filter (fun x => attendanceKey x ≠ attendanceKey r)

/-- The invariant declared by `UNIQUE(student_id, date)`: all rows have
pairwise distinct keys, i.e. at most one row per (student, date). -/
def UniqueAttendance (t : List AttendanceRow) : Prop :=
  t.Pairwise (fun a b => attendanceKey a ≠ attendanceKey b)

theorem insertOrReplace_preserves_unique (t : List AttendanceRow)
    (r : AttendanceRow) (h : UniqueAttendance t) :
    UniqueAttendance (insertOrReplaceAttendance t r) := by
  unfold UniqueAttendance insertOrReplaceAttendance
  refine List.Pairwise.cons ?_
    (List.Pairwise.sublist (List.filter_sublist t) h)
  intro b hb
  have hb2 : attendanceKey b ≠ attendanceKey r := by
    simpa using List.of_mem_filter hb
  exact Ne.symm hb2

/-- **C7.** Starting from any attendance table satisfying the
`UNIQUE(student_id, date)` constraint, any sequence of faculty
attendance writes (`INSERT OR REPLACE`) preserves it — at most one row
per (student, date) — and a conflicting write replaces rather than
duplicates: after inserting `r`, every row carrying the key of `r` is
`r` itself. -/
theorem attendance_unique_after_writes (t : List AttendanceRow)
    (writes : List AttendanceRow) (h : UniqueAttendance t) :
    UniqueAttendance (writes.foldl insertOrReplaceAttendance t) ∧
    (∀ r : AttendanceRow, r ∈ insertOrReplaceAttendance t r ∧
      ∀ x ∈ insertOrReplaceAttendance t r,
        attendanceKey x = attendanceKey r → x = r) := by
  constructor
  · induction writes generalizing t with
    | nil => exact h
    | cons w ws ih => exact ih _ (insertOrReplace_preserves_unique t w h)
  · intro r
    refine ⟨List.mem_cons_self _ _, ?_⟩
    intro x hx hkey
    rcases List.mem_cons.mp hx with rfl | hx2
    · rfl
    · have hx3 : attendanceKey x ≠ attendanceKey r := by
        simpa using List.of_mem_filter hx2
      exact absurd hkey hx3

/-- Witness for C7: three writes — two of them colliding on
`(student 1, 2024-01-10)` — folded into the empty table, the uniqueness
hypothesis discharged by `List.Pairwise.nil`. -/
theorem attendance_unique_after_writes_witness :
    UniqueAttendance
      (([⟨1, "2024-01-10", "Present", 3⟩, ⟨1, "2024-01-10", "Absent", 3⟩,
         ⟨2, "2024-01-10", "Present", 3⟩] : List AttendanceRow).foldl
        insertOrReplaceAttendance []) :=
  (attendance_unique_after_writes []
    [⟨1, "2024-01-10", "Present", 3⟩, ⟨1, "2024-01-10", "Absent", 3⟩,
     ⟨2, "2024-01-10", "Present", 3⟩] List.Pairwise.nil).1

end SchoolERP
